import Mathlib

/-
Verification of the request-execution core of the terraform-provider-vercel
client package: the error classifier and response decoder (`_doRequest`),
the rate-limit retry coordinator (`doRequest`), the URL builder (`makeURL`
with `url.PathEscape`), and the error predicates (`NotFound` / `hasStatus`).

Modelling conventions:
- Go machine integers are modelled as `Int` (with the 64-bit range check made
  explicit where `strconv.Atoi` performs it); HTTP status codes as `Nat`.
- Go `error` values are the inductive `GoError`: a concrete `*APIError`, a
  plain error, an `fmt.Errorf("...: %w", inner)` wrapping, or `ctx.Err()`.
  `errors.As(err, &apiErr)` is `asAPIError`, which walks the wrap chain.
- `encoding/json` is abstracted by a `Decoder` record supplying the two
  unmarshal operations the client performs; theorems quantify over it.
- A nil output slot (`v == nil`) is the flag `vNil`.
- The retry loop of `doRequest` is modelled faithfully to the Go source,
  including the fact that `r, err := req.toHTTPRequest()` inside the loop
  body declares a fresh `err` that shadows the function-level `err`: the
  loop guard `errors.As(err, &apiErr)` and the final `return err` therefore
  always see the error of the initial attempt.  `req.toHTTPRequest()` is
  deterministic in the request, so a rebuild that succeeded once is modelled
  as always succeeding.
- Time is discrete (seconds, the unit of `time.Duration(...) * time.Second`):
  each timer wait advances the clock by the stale retry delay; the
  `select { <-ctx.Done(); <-timer.C }` resolves to whichever event time
  comes first, cancellation winning when it fires strictly before the timer.
-/

namespace VercelClient

/-- `APIError` from the client package: code, message, status code, raw body
and the parsed retry-after delay (a Go `int`). -/
structure APIError where
  code : String
  message : String
  statusCode : Nat
  rawMessage : String
  retryAfter : Int
  deriving Repr, DecidableEq

/-- Go `error` values reachable in this client: a `*APIError`, a plain error
(e.g. the error inside `json.Unmarshal`), an `fmt.Errorf("msg: %w", inner)`
wrapping, or the context's cancellation error `ctx.Err()`. -/
inductive GoError where
  | apiError (e : APIError)
  | basic (msg : String)
  | wrapped (msg : String) (inner : GoError)
  | ctxErr
  deriving Repr, DecidableEq

/-- `errors.As(err, &apiErr)` for the target type `*APIError`: inspect the
error itself, then follow `Unwrap` through `fmt.Errorf` wrappings. -/
def asAPIError : GoError → Option APIError
  | .apiError e => some e
  | .basic _ => none
  | .wrapped _ inner => asAPIError inner
  | .ctxErr => none

/-- The parts of an `*http.Response` the client reads: status code, the fully
read body, and `Header.Get("Retry-After")` (`""` when the header is absent). -/
structure HTTPResponse where
  statusCode : Nat
  body : String
  retryAfterHeader : String
  deriving Repr, DecidableEq

/-- Abstraction of `encoding/json` as used by `_doRequest`: unmarshalling the
error envelope `{"error": {code, message}}` out of a body, and unmarshalling
a success body into the caller's output slot of type `V`.  `Except.error`
carries the message of the `error` value `json.Unmarshal` returns. -/
structure Decoder (V : Type) where
  unmarshalEnvelope : String → Except String (String × String)
  unmarshalInto : String → Except String V

/-- `strconv.Atoi`: optional sign, one or more decimal digits, nothing else,
and the value must fit in a 64-bit `int` (Go returns a range error and the
caller treats it as a parse failure). -/
def digitsVal : List Char → Option Nat
  | [] => none
  | ds => if ds.all (fun c => c.isDigit) then
      some (ds.foldl (fun acc c => acc * 10 + (c.toNat - 48)) 0)
    else none

/-- `strconv.Atoi` on the `Retry-After` header value. -/
def atoi (s : String) : Option Int :=
  match s.toList with
  | [] => none
  | c :: rest =>
    let signAndDigits : Bool × List Char :=
      if c = '-' then (true, rest)
      else if c = '+' then (false, rest)
      else (false, c :: rest)
    match digitsVal signAndDigits.2 with
    | none => none
    | some n =>
      let v : Int := if signAndDigits.1 then -(n : Int) else (n : Int)
      if -(2 ^ 63) ≤ v ∧ v < 2 ^ 63 then some v else none

/-- `Client._doRequest` after the transport round-trip and body read: classify
a status ≥ 300 response into an `*APIError` (empty body: only the status
code; unparseable body: a wrapping error naming the status; parsed body:
code/message from the envelope, raw body and status attached, a default
retry delay of 1000 — the source comment says milliseconds — overridden by a
parseable positive `Retry-After` header on a 429); on success, return nil
for a nil output slot, the synthetic `no_content` error when requested and
the status is 204, and otherwise JSON-decode the body into the slot. -/
def _doRequest {V : Type} (d : Decoder V) (resp : HTTPResponse)
    (vNil : Bool) (errorOnNoContent : Bool) : Except GoError (Option V) :=
  if 300 ≤ resp.statusCode then
    if resp.body = "" then
      .error (.apiError ⟨"", "", resp.statusCode, "", 0⟩)
    else
      match d.unmarshalEnvelope resp.body with
      | .error s =>
        .error (.wrapped
          ("error unmarshaling response for status code " ++ toString resp.statusCode)
          (.basic s))
      | .ok (c, m) =>
        let retryAfter : Int :=
          if resp.statusCode = 429 then
            if resp.retryAfterHeader ≠ "" then
              match atoi resp.retryAfterHeader with
              | some n => if 0 < n then n else 1000
              | none => 1000
            else 1000
          else 1000
        .error (.apiError ⟨c, m, resp.statusCode, resp.body, retryAfter⟩)
  else if vNil then
    .ok none
  else if errorOnNoContent && resp.statusCode == 204 then
    .error (.apiError ⟨"no_content", "No content", resp.statusCode, "", 0⟩)
  else
    match d.unmarshalInto resp.body with
    | .error s =>
      .error (.wrapped ("error unmarshaling response " ++ resp.body) (.basic s))
    | .ok v => .ok (some v)

/-- The retry guard of `doRequest`'s loop, applied to an attempt result:
`errors.As(err, &apiErr) && apiErr.StatusCode == 429 && apiErr.retryAfter > 0
&& apiErr.retryAfter < 5*60`.  Returns the delay when all conditions hold. -/
def retryDelay {V : Type} : Except GoError (Option V) → Option Int
  | .ok _ => none
  | .error e =>
    match asAPIError e with
    | some a =>
      if a.statusCode = 429 ∧ 0 < a.retryAfter ∧ a.retryAfter < 5 * 60 then
        some a.retryAfter
      else none
    | none => none

/-- Outcome of a `doRequest` run: the returned value or error, the total time
spent in timer waits (seconds), and the number of `_doRequest` attempts. -/
structure RunResult (V : Type) where
  result : Except GoError (Option V)
  time : Nat
  attempts : Nat
  deriving Repr

/-- The `for retries := 0; retries < 3; retries++` loop of `doRequest`.
`first` is the function-level `err` from the initial attempt; because the
loop body's `r, err := req.toHTTPRequest()` shadows it, the guard and the
final `return err` use `first` on every iteration, and the timer duration is
always `first`'s retry delay.  `responses idx` is the response the server
gives to attempt number `idx`; `cancelAt` is the absolute time at which the
caller's context is cancelled (`none`: never).  A retry whose `_doRequest`
returns nil makes the whole call return nil. -/
def retryLoop {V : Type} (d : Decoder V) (responses : Nat → HTTPResponse)
    (vNil errorOnNoContent : Bool) (cancelAt : Option Nat)
    (first : Except GoError (Option V)) :
    Nat → Nat → Nat → Nat → RunResult V
  | 0, _, t, attempts => ⟨first, t, attempts⟩
  | fuel + 1, idx, t, attempts =>
    match retryDelay first with
    | none => ⟨first, t, attempts⟩
    | some ra =>
      let waitEnd := t + ra.toNat
      match cancelAt with
      | some c =>
        if c < waitEnd then ⟨.error .ctxErr, max t c, attempts⟩
        else
          match _doRequest d (responses idx) vNil errorOnNoContent with
          | .ok w => ⟨.ok w, waitEnd, attempts + 1⟩
          | .error _ =>
            retryLoop d responses vNil errorOnNoContent (some c) first
              fuel (idx + 1) waitEnd (attempts + 1)
      | none =>
        match _doRequest d (responses idx) vNil errorOnNoContent with
        | .ok w => ⟨.ok w, waitEnd, attempts + 1⟩
        | .error _ =>
          retryLoop d responses vNil errorOnNoContent none first
            fuel (idx + 1) waitEnd (attempts + 1)

/-- `Client.doRequest`: one initial attempt, then the bounded retry loop
(at most 3 retries). -/
def doRequest {V : Type} (d : Decoder V) (responses : Nat → HTTPResponse)
    (vNil errorOnNoContent : Bool) (cancelAt : Option Nat) : RunResult V :=
  retryLoop d responses vNil errorOnNoContent cancelAt
    (_doRequest d (responses 0) vNil errorOnNoContent) 3 1 0 1

/-- `net/url.shouldEscape(c, encodePathSegment)`: a byte of a path segment is
left unescaped iff it is alphanumeric, one of the unreserved marks `-_.~`, or
one of the reserved characters `$&+:=@` that path segments may contain; the
segment delimiters `/;,?` and every other byte are escaped. -/
def shouldEscape (c : Nat) : Bool :=
  if (65 ≤ c ∧ c ≤ 90) ∨ (97 ≤ c ∧ c ≤ 122) ∨ (48 ≤ c ∧ c ≤ 57) then false
  else if c = 45 ∨ c = 95 ∨ c = 46 ∨ c = 126 then false
  else if c = 36 ∨ c = 38 ∨ c = 43 ∨ c = 44 ∨ c = 47 ∨ c = 58 ∨ c = 59 ∨
      c = 61 ∨ c = 63 ∨ c = 64 then
    c = 47 ∨ c = 59 ∨ c = 44 ∨ c = 63
  else true

/-- The upper-case hexadecimal digit character (as a byte) of a value < 16,
as used by `net/url.escape`. -/
def upperHexDigit (n : Nat) : Nat :=
  if n < 10 then 48 + n else 55 + n

/-- `net/url.PathEscape` over a byte string: each byte that `shouldEscape`
selects becomes `%XY` with upper-case hex digits, the rest pass through. -/
def pathEscape : List Nat → List Nat
  | [] => []
  | c :: rest =>
    (if shouldEscape c then [37, upperHexDigit (c / 16), upperHexDigit (c % 16)]
     else [c]) ++ pathEscape rest

/-- `net/url.ishex`: ASCII `0-9`, `a-f`, `A-F`. -/
def isHexDigit (c : Nat) : Bool :=
  (48 ≤ c ∧ c ≤ 57) ∨ (97 ≤ c ∧ c ≤ 102) ∨ (65 ≤ c ∧ c ≤ 70)

/-- `net/url.unhex`: the value of a hexadecimal digit byte. -/
def hexVal (c : Nat) : Nat :=
  if 48 ≤ c ∧ c ≤ 57 then c - 48
  else if 97 ≤ c ∧ c ≤ 102 then c - 87
  else c - 55

/-- `net/url.PathUnescape` over a byte string: `%XY` with two hex digits
decodes to a byte, a `%` not followed by two hex digits is an `EscapeError`
(`none`), every other byte passes through. -/
def pathUnescape : List Nat → Option (List Nat)
  | [] => some []
  | c :: rest =>
    if c = 37 then
      match rest with
      | a :: b :: rest2 =>
        if isHexDigit a ∧ isHexDigit b then
          (pathUnescape rest2).map (fun t => (hexVal a * 16 + hexVal b) :: t)
        else none
      | _ => none
    else (pathUnescape rest).map (fun t => c :: t)

/-- A format string is well formed for this client when every `%` byte begins
a `%s` verb — the only verb the client's path templates use. -/
def formatWF : List Nat → Bool
  | [] => true
  | c :: rest =>
    if c = 37 then
      match rest with
      | v :: rest2 => v = 115 && formatWF rest2
      | [] => false
    else formatWF rest

/-- The number of `%s` verbs in a format string. -/
def countVerbs : List Nat → Nat
  | [] => 0
  | c :: rest =>
    if c = 37 then
      match rest with
      | v :: rest2 => (if v = 115 then 1 else 0) + countVerbs rest2
      | [] => 0
    else countVerbs rest

/-- `fmt.Sprintf` restricted to `%s` verbs over byte strings: each `%s`
consumes the next argument verbatim, other bytes pass through.  The
mismatch diagnostics Go would embed (`%!s(MISSING)`, extra-argument notes,
unknown verbs) are modelled as `none`. -/
def sprintfS : List Nat → List (List Nat) → Option (List Nat)
  | [], [] => some []
  | [], _ :: _ => none
  | c :: rest, args =>
    if c = 37 then
      match rest, args with
      | v :: rest2, a :: args2 =>
        if v = 115 then (sprintfS rest2 args2).map (fun t => a ++ t) else none
      | _, _ => none
    else (sprintfS rest args).map (fun t => c :: t)

/-- `Client.makeURL`: `fmt.Sprintf(fmt.Sprintf("%s%s", c.baseURL,
urlPathSpecifier), escaped...)` where `escaped` applies `url.PathEscape` to
each path value.  The inner `Sprintf` concatenates the base URL and the
template, so the format string is their concatenation. -/
def makeURL (baseURL tmpl : List Nat) (urlPathValues : List (List Nat)) :
    Option (List Nat) :=
  sprintfS (baseURL ++ tmpl) (urlPathValues.map pathEscape)

/-- `hasStatus` from error.go: `err != nil && errors.As(err, &apiErr) &&
apiErr.StatusCode == statusCode`.  A Go nil error is `none`. -/
def hasStatus (err : Option GoError) (statusCode : Nat) : Bool :=
  match err with
  | none => false
  | some e =>
    match asAPIError e with
    | some a => a.statusCode == statusCode
    | none => false

/-- `NotFound` from error.go. -/
def NotFound (err : Option GoError) : Bool :=
  hasStatus err 404

/-- `noContent` from error.go. -/
def noContent (err : Option GoError) : Bool :=
  hasStatus err 204

/-- A concrete decoder for witnesses: the envelope parses with the body as
code, and success bodies decode to `()`. -/
def unitDecoder : Decoder Unit where
  unmarshalEnvelope := fun s => .ok (s, "m")
  unmarshalInto := fun _ => .ok ()

/-- A concrete decoder whose envelope unmarshal always fails, as
`json.Unmarshal` does on a non-JSON error body. -/
def failEnvDecoder : Decoder Unit where
  unmarshalEnvelope := fun _ => .error "invalid character"
  unmarshalInto := fun _ => .ok ()

/-- Server behaviour for the repeated-rate-limit scenario: every attempt is
answered 429 with a parseable envelope and an in-range `Retry-After`, the
headers differing per attempt so the four classified errors are distinct. -/
def rateLimitedResponses : Nat → HTTPResponse
  | 0 => ⟨429, "e", "5"⟩
  | 1 => ⟨429, "e", "6"⟩
  | 2 => ⟨429, "e", "7"⟩
  | _ => ⟨429, "e", "8"⟩

/-- Server behaviour for the non-retryable-retry-failure scenario: the first
attempt is a retryable 429, every later attempt fails with a 500. -/
def rateLimitThen500 : Nat → HTTPResponse
  | 0 => ⟨429, "r", "1"⟩
  | _ => ⟨500, "s", ""⟩

/-- Server behaviour for the missing-Retry-After scenario: every attempt is a
429 with a parseable envelope and no `Retry-After` header. -/
def rateLimitedNoHeader : Nat → HTTPResponse :=
  fun _ => ⟨429, "b", ""⟩

/-- When the initial attempt's error is not a retryable 429, the loop body is
never entered: the result is the initial error, with no wait and no further
attempt. -/
lemma retryLoop_not_retryable {V : Type} (d : Decoder V)
    (responses : Nat → HTTPResponse) (vNil eon : Bool) (cancelAt : Option Nat)
    (first : Except GoError (Option V)) (h : retryDelay first = none)
    (fuel idx t attempts : Nat) :
    retryLoop d responses vNil eon cancelAt first fuel idx t attempts =
      ⟨first, t, attempts⟩ := by
  cases fuel with
  | zero => rfl
  | succ n => simp [retryLoop, h]

/-- When the loop is about to wait and the cancellation time lands strictly
before the timer's expiry, the run returns the context's error at the
cancellation time, with no further attempt. -/
lemma retryLoop_cancel {V : Type} (d : Decoder V)
    (responses : Nat → HTTPResponse) (vNil eon : Bool) (c : Nat)
    (first : Except GoError (Option V)) (ra : Int)
    (h : retryDelay first = some ra) (fuel idx t attempts : Nat)
    (hc : c < t + ra.toNat) :
    retryLoop d responses vNil eon (some c) first (fuel + 1) idx t attempts =
      ⟨.error .ctxErr, max t c, attempts⟩ := by
  simp [retryLoop, h, hc]

/-- C9: `NotFound` returns true exactly when the error is non-nil and unwraps
to an `APIError` with status code 404; it is false on nil errors, errors of
any other shape, and classified errors of any other status. -/
theorem notFound_iff_status_404 (err : Option GoError) :
    NotFound err = true ↔
      ∃ e a, err = some e ∧ asAPIError e = some a ∧ a.statusCode = 404 := by
  cases err with
  | none => simp [NotFound, hasStatus]
  | some e =>
    cases h : asAPIError e with
    | none => simp [NotFound, hasStatus, h]
    | some a => simp [NotFound, hasStatus, h]

/-- C10: for a status < 300 response with a nil output slot the executor
returns success — the nil-slot check precedes the no-content check, so this
holds even when the no-content-is-an-error flag is set and the status is
204 — and in particular no `no_content` classified error is produced. -/
theorem nil_output_slot_short_circuits {V : Type} (d : Decoder V)
    (resp : HTTPResponse) (eon : Bool) (h : resp.statusCode < 300) :
    _doRequest d resp true eon = .ok none ∧
      ∀ e, _doRequest d resp true eon ≠ .error e := by
  have h' : ¬ 300 ≤ resp.statusCode := by omega
  refine ⟨by simp [_doRequest, h'], fun e => by simp [_doRequest, h']⟩

theorem nil_output_slot_short_circuits_witness :
    _doRequest unitDecoder ⟨204, "", ""⟩ true true = .ok none ∧
      ∀ e, _doRequest unitDecoder ⟨204, "", ""⟩ true true ≠ .error e :=
  nil_output_slot_short_circuits unitDecoder ⟨204, "", ""⟩ true (by decide)

/-- C4: when the initial attempt yields a classified 429 whose retry delay is
0 or at least 300 seconds, the coordinator performs no wait and no retry and
immediately returns that error. -/
theorem doRequest_no_retry_when_delay_out_of_range {V : Type} (d : Decoder V)
    (responses : Nat → HTTPResponse) (vNil eon : Bool) (cancelAt : Option Nat)
    (e : GoError) (a : APIError)
    (he : _doRequest d (responses 0) vNil eon = .error e)
    (ha : asAPIError e = some a) (_h429 : a.statusCode = 429)
    (hra : a.retryAfter = 0 ∨ 300 ≤ a.retryAfter) :
    doRequest d responses vNil eon cancelAt = ⟨.error e, 0, 1⟩ := by
  have hrd : retryDelay (V := V) (.error e) = none := by
    simp only [retryDelay, ha]
    rw [if_neg]
    rcases hra with h | h <;> rintro ⟨-, h1, h2⟩ <;> omega
  have := retryLoop_not_retryable d responses vNil eon cancelAt
    (.error e) hrd 3 1 0 1
  simpa [doRequest, he] using this

theorem doRequest_no_retry_when_delay_out_of_range_witness :
    doRequest unitDecoder (fun _ => ⟨429, "b", "400"⟩) false false none =
      ⟨.error (.apiError ⟨"b", "m", 429, "b", 400⟩), 0, 1⟩ :=
  doRequest_no_retry_when_delay_out_of_range unitDecoder
    (fun _ => ⟨429, "b", "400"⟩) false false none
    (.apiError ⟨"b", "m", 429, "b", 400⟩) ⟨"b", "m", 429, "b", 400⟩
    rfl rfl rfl (Or.inr (by decide))

/-- C5: if the initial attempt yields a retryable 429 (delay strictly between
0 and 300 seconds) and the caller's cancellation fires strictly before the
retry timer elapses, the call abandons the timer, performs no further
attempt, and returns the cancellation error — not the 429 — at the
cancellation time, which is strictly within the full wait. -/
theorem doRequest_cancelled_during_wait {V : Type} (d : Decoder V)
    (responses : Nat → HTTPResponse) (vNil eon : Bool) (c : Nat) (ra : Int)
    (h0 : retryDelay (_doRequest d (responses 0) vNil eon) = some ra)
    (hc : c < ra.toNat) :
    doRequest d responses vNil eon (some c) = ⟨.error .ctxErr, c, 1⟩ ∧
      c < ra.toNat := by
  refine ⟨?_, hc⟩
  have := retryLoop_cancel d responses vNil eon c
    (_doRequest d (responses 0) vNil eon) ra h0 2 1 0 1 (by simpa using hc)
  simpa [doRequest] using this

theorem doRequest_cancelled_during_wait_witness :
    doRequest unitDecoder (fun _ => ⟨429, "b", "10"⟩) false false (some 3) =
      ⟨.error .ctxErr, 3, 1⟩ ∧ (3 : Nat) < (10 : Int).toNat :=
  doRequest_cancelled_during_wait unitDecoder (fun _ => ⟨429, "b", "10"⟩)
    false false 3 10 rfl (by decide)

/-- C6 counterexample: a 204 response (status < 300) with a non-nil output
slot and the no-content-is-an-error flag set makes the executor return the
synthetic `no_content` error — which is a classified `APIError` — so "no
Classified Error is returned for status < 300" fails as stated. -/
theorem success_status_classified_error_counterexample :
    _doRequest unitDecoder ⟨204, "", ""⟩ false true =
      .error (.apiError ⟨"no_content", "No content", 204, "", 0⟩) ∧
    asAPIError (.apiError ⟨"no_content", "No content", 204, "", 0⟩) =
      some ⟨"no_content", "No content", 204, "", 0⟩ ∧
    (204 : Nat) < 300 :=
  ⟨rfl, rfl, by decide⟩

/-- C6 amended: for a status < 300 response with a non-nil output slot,
except when the no-content-is-an-error flag is set and the status is 204,
the body is JSON-decoded into the output slot; a decode failure yields a
wrapped non-classified error whose message includes the raw body, and no
classified `APIError` is ever returned. -/
theorem decode_into_output_slot {V : Type} (d : Decoder V)
    (resp : HTTPResponse) (eon : Bool) (h : resp.statusCode < 300)
    (hne : ¬ (eon = true ∧ resp.statusCode = 204)) :
    (∀ v, d.unmarshalInto resp.body = .ok v →
       _doRequest d resp false eon = .ok (some v)) ∧
    (∀ s, d.unmarshalInto resp.body = .error s →
       _doRequest d resp false eon =
         .error (.wrapped ("error unmarshaling response " ++ resp.body)
           (.basic s))) ∧
    (∀ e, _doRequest d resp false eon = .error e → asAPIError e = none) := by
  have h' : ¬ 300 ≤ resp.statusCode := by omega
  have hflag : (eon && (resp.statusCode == 204)) = false := by
    cases eon with
    | false => rfl
    | true =>
      have hne' : resp.statusCode ≠ 204 := fun hh => hne ⟨rfl, hh⟩
      simp [hne']
  refine ⟨fun v hv => ?_, fun s hs => ?_, fun e he => ?_⟩
  · simp [_doRequest, h', hflag, hv]
  · simp [_doRequest, h', hflag, hs]
  · rcases hv : d.unmarshalInto resp.body with s | v
    · simp [_doRequest, h', hflag, hv] at he
      simp [← he, asAPIError]
    · simp [_doRequest, h', hflag, hv] at he

theorem decode_into_output_slot_witness :
    ((∀ v, unitDecoder.unmarshalInto "body" = .ok v →
       _doRequest unitDecoder ⟨200, "body", ""⟩ false false = .ok (some v)) ∧
    (∀ s, unitDecoder.unmarshalInto "body" = .error s →
       _doRequest unitDecoder ⟨200, "body", ""⟩ false false =
         .error (.wrapped ("error unmarshaling response " ++ "body")
           (.basic s))) ∧
    (∀ e, _doRequest unitDecoder ⟨200, "body", ""⟩ false false = .error e →
       asAPIError e = none)) :=
  decode_into_output_slot unitDecoder ⟨200, "body", ""⟩ false (by decide)
    (by decide)

/-- C7 counterexample: for a status ≥ 300 response whose non-empty body fails
to parse as the error envelope, the executor returns a wrapping error that
is not a classified `APIError` at all — it carries neither the raw body nor
a structured status code — so "the classified error always carries the raw
body and status" fails for the parse-failure outcome. -/
theorem classifier_parse_failure_counterexample :
    _doRequest failEnvDecoder ⟨500, "oops", ""⟩ false false =
      .error (.wrapped ("error unmarshaling response for status code 500")
        (.basic "invalid character")) ∧
    asAPIError (.wrapped ("error unmarshaling response for status code 500")
      (.basic "invalid character")) = none :=
  ⟨rfl, rfl⟩

/-- C7 amended: for a status ≥ 300 response, an empty body yields a
classified error carrying only the status code (its raw-body field is the
empty body); a body that parses as the envelope yields a classified error
carrying the envelope's code and message together with the raw body and the
status code; a body that fails to parse yields a wrapping, non-classified
error naming the failing status code. -/
theorem classifier_fields_by_parse_outcome {V : Type} (d : Decoder V)
    (resp : HTTPResponse) (vNil eon : Bool) (h : 300 ≤ resp.statusCode) :
    (resp.body = "" →
       _doRequest d resp vNil eon =
         .error (.apiError ⟨"", "", resp.statusCode, "", 0⟩)) ∧
    (∀ c m, resp.body ≠ "" → d.unmarshalEnvelope resp.body = .ok (c, m) →
       ∃ a, _doRequest d resp vNil eon = .error (.apiError a) ∧
         a.code = c ∧ a.message = m ∧ a.statusCode = resp.statusCode ∧
         a.rawMessage = resp.body) ∧
    (∀ s, resp.body ≠ "" → d.unmarshalEnvelope resp.body = .error s →
       _doRequest d resp vNil eon =
         .error (.wrapped ("error unmarshaling response for status code " ++
             toString resp.statusCode) (.basic s)) ∧
       asAPIError (.wrapped ("error unmarshaling response for status code " ++
           toString resp.statusCode) (.basic s)) = none) := by
  refine ⟨fun hb => ?_, fun c m hb henv => ?_, fun s hb henv => ?_⟩
  · simp [_doRequest, h, hb]
  · refine ⟨⟨c, m, resp.statusCode, resp.body,
      if resp.statusCode = 429 then
        if resp.retryAfterHeader ≠ "" then
          match atoi resp.retryAfterHeader with
          | some n => if 0 < n then n else 1000
          | none => 1000
        else 1000
      else 1000⟩, ?_, rfl, rfl, rfl, rfl⟩
    simp [_doRequest, h, hb, henv]
  · exact ⟨by simp [_doRequest, h, hb, henv], rfl⟩

theorem classifier_fields_by_parse_outcome_witness :
    (("b" : String) = "" →
       _doRequest unitDecoder ⟨500, "b", ""⟩ false false =
         .error (.apiError ⟨"", "", 500, "", 0⟩)) ∧
    (∀ c m, ("b" : String) ≠ "" →
       unitDecoder.unmarshalEnvelope "b" = .ok (c, m) →
       ∃ a, _doRequest unitDecoder ⟨500, "b", ""⟩ false false =
         .error (.apiError a) ∧
         a.code = c ∧ a.message = m ∧ a.statusCode = 500 ∧
         a.rawMessage = "b") ∧
    (∀ s, ("b" : String) ≠ "" →
       unitDecoder.unmarshalEnvelope "b" = .error s →
       _doRequest unitDecoder ⟨500, "b", ""⟩ false false =
         .error (.wrapped ("error unmarshaling response for status code " ++
             toString (500 : Nat)) (.basic s)) ∧
       asAPIError (.wrapped ("error unmarshaling response for status code " ++
           toString (500 : Nat)) (.basic s)) = none) :=
  classifier_fields_by_parse_outcome unitDecoder ⟨500, "b", ""⟩ false false
    (by decide)

/-- C1 (at the failing input): when every attempt is answered with a
retryable 429 (here with distinct `Retry-After` values 5,6,7,8), the
coordinator does stop after 3 retries (4 total attempts), but — because the
loop body's `r, err := ...` shadows the function-level `err` — it returns
the error of the *initial* attempt (delay 5), not the error the final
attempt produced (delay 8), and each wait reuses the initial delay. -/
theorem doRequest_rate_limit_returns_first_error :
    doRequest unitDecoder rateLimitedResponses false false none =
      ⟨.error (.apiError ⟨"e", "m", 429, "e", 5⟩), 15, 4⟩ ∧
    _doRequest unitDecoder (rateLimitedResponses 3) false false =
      .error (.apiError ⟨"e", "m", 429, "e", 8⟩) ∧
    (GoError.apiError ⟨"e", "m", 429, "e", 5⟩) ≠ .apiError ⟨"e", "m", 429, "e", 8⟩ :=
  ⟨rfl, rfl, by decide⟩

/-- C2 (at the failing input): after a retryable 429 on the initial attempt,
a retry that fails with a classified 500 does not stop the loop and is not
returned: the stale initial error keeps satisfying the guard, all 3 retries
run (4 attempts), and the initial 429 — not the 500 — is returned. -/
theorem doRequest_retries_past_non_rate_limit_error :
    doRequest unitDecoder rateLimitThen500 false false none =
      ⟨.error (.apiError ⟨"r", "m", 429, "r", 1⟩), 3, 4⟩ ∧
    _doRequest unitDecoder (rateLimitThen500 1) false false =
      .error (.apiError ⟨"s", "m", 500, "s", 1000⟩) ∧
    (GoError.apiError ⟨"r", "m", 429, "r", 1⟩) ≠ .apiError ⟨"s", "m", 500, "s", 1000⟩ :=
  ⟨rfl, rfl, by decide⟩

/-- An upper-case hex digit byte is a hex digit. -/
lemma upperHexDigit_isHex (n : Nat) (h : n < 16) :
    isHexDigit (upperHexDigit n) = true := by
  simp only [isHexDigit, upperHexDigit]
  split <;> simp <;> omega

/-- `hexVal` inverts `upperHexDigit` below 16. -/
lemma hexVal_upperHexDigit (n : Nat) (h : n < 16) :
    hexVal (upperHexDigit n) = n := by
  simp only [hexVal, upperHexDigit]
  split_ifs <;> omega

/-- An upper-case hex digit byte is never `/`, `?` or a space. -/
lemma upperHexDigit_ne_delims (n : Nat) (h : n < 16) :
    upperHexDigit n ≠ 47 ∧ upperHexDigit n ≠ 63 ∧ upperHexDigit n ≠ 32 := by
  simp only [upperHexDigit]
  split <;> omega

/-- Unfolding lemma: `pathUnescape` on a non-`%` head byte. -/
lemma pathUnescape_cons_ne (c : Nat) (rest : List Nat) (h : c ≠ 37) :
    pathUnescape (c :: rest) = (pathUnescape rest).map (fun t => c :: t) := by
  rw [pathUnescape.eq_def]
  simp [h]

/-- Unfolding lemma: `formatWF` skips a non-`%` byte. -/
lemma formatWF_cons_ne (c : Nat) (rest : List Nat) (h : c ≠ 37) :
    formatWF (c :: rest) = formatWF rest := by
  rw [formatWF.eq_def]
  simp [h]

/-- Unfolding lemma: `countVerbs` skips a non-`%` byte. -/
lemma countVerbs_cons_ne (c : Nat) (rest : List Nat) (h : c ≠ 37) :
    countVerbs (c :: rest) = countVerbs rest := by
  rw [countVerbs.eq_def]
  simp [h]

/-- Unfolding lemma: `sprintfS` copies a non-`%` byte. -/
lemma sprintfS_cons_ne (c : Nat) (rest : List Nat) (args : List (List Nat))
    (h : c ≠ 37) :
    sprintfS (c :: rest) args = (sprintfS rest args).map (fun t => c :: t) := by
  rw [sprintfS.eq_def]
  simp [h]

/-- Unfolding lemma: `sprintfS` substitutes the next argument at a `%s`. -/
lemma sprintfS_verb (rest2 : List Nat) (a : List Nat) (args2 : List (List Nat)) :
    sprintfS (37 :: 115 :: rest2) (a :: args2) =
      (sprintfS rest2 args2).map (fun t => a ++ t) := by
  rw [sprintfS.eq_def]
  simp

/-- `PathUnescape` inverts `PathEscape` on byte strings. -/
lemma pathUnescape_pathEscape (s : List Nat) (h : ∀ c ∈ s, c < 256) :
    pathUnescape (pathEscape s) = some s := by
  induction s with
  | nil => rfl
  | cons c rest ih =>
    have hc : c < 256 := h c (by simp)
    have hrest : ∀ x ∈ rest, x < 256 := fun x hx => h x (by simp [hx])
    by_cases hesc : shouldEscape c = true
    · have h1 : c / 16 < 16 := by omega
      have h2 : c % 16 < 16 := Nat.mod_lt _ (by norm_num)
      simp [pathEscape, hesc, pathUnescape, upperHexDigit_isHex _ h1,
        upperHexDigit_isHex _ h2, hexVal_upperHexDigit _ h1,
        hexVal_upperHexDigit _ h2, ih hrest]
      omega
    · have hc37 : c ≠ 37 := by
        intro e
        rw [e] at hesc
        exact hesc (by decide)
      simp [pathEscape, hesc, pathUnescape_cons_ne _ _ hc37, ih hrest]

/-- Every byte of an escaped path segment differs from `/`, `?` and space:
those three bytes are always escaped, and the emitted `%XY` triples consist
of `%` and hex digit bytes. -/
lemma pathEscape_no_delims (s : List Nat) (h : ∀ c ∈ s, c < 256) :
    ∀ c ∈ pathEscape s, c ≠ 47 ∧ c ≠ 63 ∧ c ≠ 32 := by
  induction s with
  | nil => simp [pathEscape]
  | cons c rest ih =>
    have hrest : ∀ x ∈ rest, x < 256 := fun x hx => h x (by simp [hx])
    intro x hx
    by_cases hesc : shouldEscape c = true
    · have h1 : c / 16 < 16 := by have := h c (by simp); omega
      have h2 : c % 16 < 16 := Nat.mod_lt _ (by norm_num)
      simp [pathEscape, hesc] at hx
      rcases hx with hx | hx | hx | hx
      · omega
      · exact hx ▸ upperHexDigit_ne_delims _ h1
      · exact hx ▸ upperHexDigit_ne_delims _ h2
      · exact ih hrest x hx
    · simp [pathEscape, hesc] at hx
      rcases hx with hx | hx
      · subst hx
        refine ⟨?_, ?_, ?_⟩ <;> intro e <;> rw [e] at hesc <;>
          exact hesc (by decide)
      · exact ih hrest x hx

/-- A well-formed format string with as many `%s` verbs as arguments always
substitutes successfully. -/
lemma sprintfS_total_aux (n : Nat) :
    ∀ f : List Nat, ∀ args : List (List Nat), f.length ≤ n →
      formatWF f = true → countVerbs f = args.length →
      ∃ r, sprintfS f args = some r := by
  induction n with
  | zero =>
    intro f args hlen _ hcount
    have hf : f = [] := List.length_eq_zero.mp (Nat.le_zero.mp hlen)
    subst hf
    have : args = [] := List.length_eq_zero.mp (by simpa [countVerbs] using hcount.symm)
    subst this
    exact ⟨[], rfl⟩
  | succ n ih =>
    intro f args hlen hwf hcount
    cases f with
    | nil =>
      have : args = [] := List.length_eq_zero.mp (by simpa [countVerbs] using hcount.symm)
      subst this
      exact ⟨[], rfl⟩
    | cons c rest =>
      by_cases hc : c = 37
      · subst hc
        cases rest with
        | nil => simp [formatWF] at hwf
        | cons v rest2 =>
          have hv : v = 115 ∧ formatWF rest2 = true := by
            simpa [formatWF] using hwf
          obtain ⟨hv1, hv2⟩ := hv
          subst hv1
          cases args with
          | nil => simp [countVerbs] at hcount
          | cons a args2 =>
            have hcount2 : countVerbs rest2 = args2.length := by
              have h' : 1 + countVerbs rest2 = args2.length + 1 := by
                simpa [countVerbs] using hcount
              omega
            have hlen2 : rest2.length ≤ n := by
              simp at hlen
              omega
            obtain ⟨r, hr⟩ := ih rest2 args2 hlen2 hv2 hcount2
            exact ⟨a ++ r, by simp [sprintfS_verb, hr]⟩
      · have hwf' : formatWF rest = true := by
          rwa [formatWF_cons_ne _ _ hc] at hwf
        have hcount' : countVerbs rest = args.length := by
          rwa [countVerbs_cons_ne _ _ hc] at hcount
        have hlen' : rest.length ≤ n := by
          simp at hlen
          omega
        obtain ⟨r, hr⟩ := ih rest args hlen' hwf' hcount'
        exact ⟨c :: r, by simp [sprintfS_cons_ne _ _ _ hc, hr]⟩

/-- Prepending a `%`-free literal to the format string prepends it to the
substitution result. -/
lemma sprintfS_append_lit (base : List Nat) (hb : ∀ c ∈ base, c ≠ 37)
    (f : List Nat) (args : List (List Nat)) (r : List Nat)
    (h : sprintfS f args = some r) :
    sprintfS (base ++ f) args = some (base ++ r) := by
  induction base with
  | nil => simpa using h
  | cons c bs ih =>
    have hc : c ≠ 37 := hb c (by simp)
    have ih' := ih (fun x hx => hb x (by simp [hx]))
    simp [sprintfS_cons_ne _ _ _ hc, ih']

/-- C8: `makeURL` percent-escapes each path value independently with
`PathEscape` — so unescaping recovers the original value, even for values
containing `/`, `?` or spaces, and the escaped segment never contains those
delimiter bytes — substitutes the escaped values positionally into the
template's `%s` verbs, and prefixes the client's base URL. -/
theorem makeURL_escapes_substitutes_prefixes (base tmpl : List Nat)
    (vals : List (List Nat)) (hbase : ∀ c ∈ base, c ≠ 37)
    (hwf : formatWF tmpl = true) (hcount : countVerbs tmpl = vals.length)
    (hbytes : ∀ v ∈ vals, ∀ c ∈ v, c < 256) :
    (∃ s, sprintfS tmpl (vals.map pathEscape) = some s ∧
       makeURL base tmpl vals = some (base ++ s)) ∧
    (∀ v ∈ vals, pathUnescape (pathEscape v) = some v) ∧
    (∀ v ∈ vals, ∀ c ∈ pathEscape v, c ≠ 47 ∧ c ≠ 63 ∧ c ≠ 32) := by
  refine ⟨?_, fun v hv => pathUnescape_pathEscape v (hbytes v hv),
    fun v hv => pathEscape_no_delims v (hbytes v hv)⟩
  obtain ⟨r, hr⟩ := sprintfS_total_aux tmpl.length tmpl (vals.map pathEscape)
    le_rfl hwf (by simpa using hcount)
  exact ⟨r, hr, by
    simpa [makeURL] using sprintfS_append_lit base hbase tmpl _ r hr⟩

theorem makeURL_escapes_substitutes_prefixes_witness :
    (∃ s, sprintfS [47, 118, 47, 37, 115] ([[120, 47, 63, 32]].map pathEscape) =
       some s ∧
       makeURL [98, 58] [47, 118, 47, 37, 115] [[120, 47, 63, 32]] =
         some ([98, 58] ++ s)) ∧
    (∀ v ∈ [[120, 47, 63, 32]], pathUnescape (pathEscape v) = some v) ∧
    (∀ v ∈ [[120, 47, 63, 32]], ∀ c ∈ pathEscape v,
       c ≠ 47 ∧ c ≠ 63 ∧ c ≠ 32) :=
  makeURL_escapes_substitutes_prefixes [98, 58] [47, 118, 47, 37, 115]
    [[120, 47, 63, 32]] (by decide) (by decide) (by decide) (by decide)

/-- C3 (at the failing input): a 429 whose `Retry-After` header is absent
keeps the classifier's default retry delay of 1000 — commented as
milliseconds but consumed as seconds — which fails the `< 300` ceiling of
the retry guard, so the coordinator performs no wait and no retry instead
of waiting one second and retrying. -/
theorem default_retry_delay_blocks_retry :
    _doRequest unitDecoder (rateLimitedNoHeader 0) false false =
      .error (.apiError ⟨"b", "m", 429, "b", 1000⟩) ∧
    doRequest unitDecoder rateLimitedNoHeader false false none =
      ⟨.error (.apiError ⟨"b", "m", 429, "b", 1000⟩), 0, 1⟩ ∧
    retryDelay (V := Unit)
      (.error (.apiError ⟨"b", "m", 429, "b", 1000⟩)) = none :=
  ⟨rfl, rfl, rfl⟩

end VercelClient
